import Mathlib

/-!
Shallow embedding of the playback state machine of `src/app/state/playback_state.rs`:
the `PlaybackState` aggregate, its navigation / playback-control / queue-mutation
methods, the `PositionMillis` wall-clock position estimator, and the
action-to-events reducer `update_with`.

Wall-clock time is made explicit: every operation that reads or anchors the clock
takes a `now : Nat` millisecond timestamp (the source reads `Instant::now()`).
The playback rate field of `PositionMillis` is an `f32` in the source but is fixed
to `1.0` in production (`PlaybackState::default` constructs `PositionMillis::new(1.0)`);
it is modelled as a `Nat` multiplier, so `rate * elapsed` is exact and the source's
`ceil` is the identity.

The song-list container, the shuffle-index generator and the model types live in
other files of the repository that are not part of the provided sources; they are
modelled from the spec (each such definition says so in its doc comment).
-/

set_option autoImplicit false

/-- Modelled from the spec: a song description (`SongDescription` of the models
module, which is not among the provided sources). The spec only requires that
songs carry a unique id; the other metadata fields (title, artists, duration, …)
play no role in the playback core, so only the id is modelled. -/
structure SongDescription where
  id : String
deriving DecidableEq, Repr

/-- Modelled from the spec: an opaque identifier of the origin of the current song
list (`SongsSource`, not among the provided sources); only equality is used. -/
structure SongsSource where
  tag : String
deriving DecidableEq, Repr

/-- Modelled from the spec: a batch, "a contiguous slice of songs delivered
together by the pagination collaborator" (`SongBatch`, not among the provided
sources). -/
structure SongBatch where
  songs : List SongDescription
deriving DecidableEq, Repr

/-- Modelled from the spec: the ordered song collection (`SongListModel`, not among
the provided sources). The spec requires `len()`, `index(i)`, `find_index(id)` and
a pending-edit builder whose `commit()` reports whether content changed; the
backing sequence is a list of songs. -/
structure SongListModel where
  songs : List SongDescription
deriving DecidableEq, Repr

/-- Modelled from the spec: `SongListModel::new(batch_size)` creates an empty
collection; the pagination batch size does not affect any behavior modelled here. -/
def SongListModel.new (_batch_size : Nat) : SongListModel := ⟨[]⟩

/-- Modelled from the spec: the number of songs in the collection. -/
def SongListModel.len (m : SongListModel) : Nat := m.songs.length

/-- Modelled from the spec: `index(i) -> song or none`. -/
def SongListModel.index (m : SongListModel) (i : Nat) : Option SongDescription :=
  m.songs[i]?

/-- Helper for `SongListModel.find_index`: index of the first song with the given
id, scanning left to right. -/
def findIndexAux : List SongDescription → String → Option Nat
  | [], _ => none
  | s :: rest, i => if s.id = i then some 0 else (findIndexAux rest i).map (· + 1)

/-- Modelled from the spec: `find_index(id) -> optional index` of the song with the
given id. -/
def SongListModel.find_index (m : SongListModel) (i : String) : Option Nat :=
  findIndexAux m.songs i

/-- Modelled from the spec: the pending-edit `remove(ids)` followed by `commit()`;
removes every song whose id is among `ids`, keeping order. -/
def SongListModel.remove (m : SongListModel) (ids : List String) : SongListModel :=
  ⟨m.songs.filter (fun s => !(ids.contains s.id))⟩

/-- Modelled from the spec: the pending-edit `append(tracks)` followed by
`commit()`. -/
def SongListModel.append (m : SongListModel) (tracks : List SongDescription) : SongListModel :=
  ⟨m.songs ++ tracks⟩

/-- Modelled from the spec: the lazily-generated permutation generator over
`0..songs.len()` (`LazyRandomIndex`, not among the provided sources). Its
interface is `get`, `resize`, `grow`, `shrink`, `reset_picking_first`,
`next_until`. The actual generator is random; this deterministic instance
materializes the not-yet-picked physical indices in increasing order, which is a
legitimate permutation; no claim below depends on which permutation is drawn. -/
structure LazyRandomIndex where
  size : Nat
  materialized : List Nat
deriving DecidableEq, Repr

instance : Inhabited LazyRandomIndex := ⟨⟨0, []⟩⟩

/-- Modelled from the spec: `get(logical_index) -> physical_index`, defined on the
materialized prefix of the permutation. -/
def LazyRandomIndex.get (r : LazyRandomIndex) (i : Nat) : Option Nat :=
  r.materialized[i]?

/-- Modelled from the spec: `reset_picking_first(physical_index)` reseeds the
permutation so the given physical index is shuffle-position 0; previously
materialized picks are discarded. -/
def LazyRandomIndex.reset_picking_first (r : LazyRandomIndex) (i : Nat) : LazyRandomIndex :=
  { r with materialized := [i] }

/-- Modelled from the spec: `next_until(n)` materializes the permutation up to
(but excluding) position `n`, bounded by the addressable range. -/
def LazyRandomIndex.next_until (r : LazyRandomIndex) (n : Nat) : LazyRandomIndex :=
  let fresh := (List.range r.size).filter (fun j => !(r.materialized.contains j))
  { r with materialized :=
      r.materialized ++ fresh.take (min n r.size - r.materialized.length) }

/-- Modelled from the spec: `resize(len)` sets the addressable range to `len`,
discarding materialized picks beyond the new bound. -/
def LazyRandomIndex.resize (r : LazyRandomIndex) (n : Nat) : LazyRandomIndex :=
  { size := n, materialized := r.materialized.filter (· < n) }

/-- Modelled from the spec: `grow(len)` widens the addressable range to `len`. -/
def LazyRandomIndex.grow (r : LazyRandomIndex) (n : Nat) : LazyRandomIndex :=
  { r with size := max r.size n }

/-- Modelled from the spec: `shrink(len)` narrows the addressable range to `len`,
discarding materialized picks beyond the new bound. -/
def LazyRandomIndex.shrink (r : LazyRandomIndex) (n : Nat) : LazyRandomIndex :=
  { size := min r.size n, materialized := r.materialized.filter (· < n) }

/-- Modelled from the spec: a connect-capable device descriptor (`ConnectDevice`,
not among the provided sources); only identity matters here. -/
structure ConnectDevice where
  id : String
deriving DecidableEq, Repr

/-- The current playback device: local, or a specific connect device. -/
inductive Device where
  | Local : Device
  | Connect : ConnectDevice → Device
deriving DecidableEq, Repr

/-- Modelled from the spec: the repeat policy, one of {None, Song, Playlist}
(`RepeatMode` of the models module, not among the provided sources). -/
inductive RepeatMode where
  | Song : RepeatMode
  | Playlist : RepeatMode
  | None : RepeatMode
deriving DecidableEq, Repr

/-- The wall-clock position estimator `PositionMillis`. `last_resume_instant` is
the millisecond timestamp of the anchor (`Instant` in the source); `rate` is the
playback-rate multiplier (`f32` in the source, fixed to `1.0` in production and
modelled as a `Nat`, making the source's `ceil` the identity). -/
structure PositionMillis where
  last_known_position : Nat
  last_resume_instant : Option Nat
  rate : Nat
deriving DecidableEq, Repr

/-- `PositionMillis::new(rate)`: position 0, no anchor. -/
def PositionMillis.new (rate : Nat) : PositionMillis :=
  { last_known_position := 0, last_resume_instant := none, rate := rate }

/-- `PositionMillis::current()`: `last_known_position` plus `rate` times the time
elapsed since the anchor (0 if not anchored), evaluated at wall-clock `now`. -/
def PositionMillis.current (p : PositionMillis) (now : Nat) : Nat :=
  p.last_known_position +
    ((p.last_resume_instant.map (fun ri => p.rate * (now - ri))).getD 0)

/-- `PositionMillis::set(position, playing)`: pins the known position and anchors
at `now` when `playing`, clears the anchor otherwise. -/
def PositionMillis.set (p : PositionMillis) (position : Nat) (playing : Bool) (now : Nat) :
    PositionMillis :=
  { p with last_known_position := position,
           last_resume_instant := if playing then some now else none }

/-- `PositionMillis::pause()`: folds the elapsed time into the known position and
clears the anchor. -/
def PositionMillis.pause (p : PositionMillis) (now : Nat) : PositionMillis :=
  { p with last_known_position := p.current now, last_resume_instant := none }

/-- `PositionMillis::resume()`: re-anchors at `now` without changing the known
position. -/
def PositionMillis.resume (p : PositionMillis) (now : Nat) : PositionMillis :=
  { p with last_resume_instant := some now }

/-- The playback state aggregate, fields as in the source. -/
structure PlaybackState where
  available_devices : List ConnectDevice
  current_device : Device
  index : LazyRandomIndex
  songs : SongListModel
  list_position : Option Nat
  seek_position : PositionMillis
  source : Option SongsSource
  repeat_mode : RepeatMode
  is_playing : Bool
  is_shuffled : Bool
deriving DecidableEq, Repr

/-- `PlaybackState::default()`: empty song list, local device, repeat off, not
playing, not shuffled. -/
def PlaybackState.default : PlaybackState :=
  { available_devices := []
    current_device := Device.Local
    index := Inhabited.default
    songs := SongListModel.new 50
    list_position := none
    seek_position := PositionMillis.new 1
    source := none
    repeat_mode := RepeatMode.None
    is_playing := false
    is_shuffled := false }

/-- `PlaybackState::is_playing()`: the effective playing state, the `is_playing`
intent flag and a loaded track. (Named apart from the field of the same name.) -/
def PlaybackState.effective_is_playing (s : PlaybackState) : Bool :=
  s.is_playing && s.list_position.isSome

/-- Private `PlaybackState::index(i)`: the song at logical position `i`,
translated through the shuffle index when shuffled. (Named apart from the
`index` field.) -/
def PlaybackState.index_song (s : PlaybackState) (i : Nat) : Option SongDescription :=
  if s.is_shuffled then (s.index.get i).bind (fun j => s.songs.index j)
  else s.songs.index i

/-- `PlaybackState::current_song_id()`. -/
def PlaybackState.current_song_id (s : PlaybackState) : Option String :=
  (s.list_position.bind s.index_song).map (·.id)

/-- `PlaybackState::next_index()`: the navigation table for the successor
position, by repeat mode. -/
def PlaybackState.next_index (s : PlaybackState) : Option Nat :=
  let len := s.songs.len
  s.list_position.bind (fun p =>
    match s.repeat_mode with
    | RepeatMode.Song => some p
    | RepeatMode.Playlist => if len ≠ 0 then some ((p + 1) % len) else none
    | RepeatMode.None => if p + 1 < len then some (p + 1) else none)

/-- `PlaybackState::prev_index()`: the navigation table for the predecessor
position, by repeat mode. -/
def PlaybackState.prev_index (s : PlaybackState) : Option Nat :=
  let len := s.songs.len
  s.list_position.bind (fun p =>
    match s.repeat_mode with
    | RepeatMode.Song => some p
    | RepeatMode.Playlist => if len ≠ 0 then some ((if p = 0 then len else p) - 1) else none
    | RepeatMode.None => if p > 0 then some (p - 1) else none)

/-- Private `PlaybackState::next_id()`: id of the song at `next_index()` in the
physical collection (the source does not route this through the shuffle index). -/
def PlaybackState.next_id (s : PlaybackState) : Option String :=
  s.next_index.bind (fun i => (s.songs.index i).map (·.id))

/-- Private `PlaybackState::clear(source)`: detaches to the given source, resets
the shuffle index, clears the pointer and empties the collection (the source
returns a pending edit on the collection; the commit is folded in here by the
composite operations below). -/
def PlaybackState.clear (s : PlaybackState) (source : Option SongsSource) : PlaybackState :=
  { s with source := source
           index := Inhabited.default
           list_position := none
           songs := ⟨[]⟩ }

/-- Private `PlaybackState::set_batch(source, batch)`: clear then add the batch,
commit (reporting whether content changed), and resize the shuffle index to the
new length. -/
def PlaybackState.set_batch (s : PlaybackState) (source : Option SongsSource)
    (song_batch : SongBatch) : PlaybackState × Bool :=
  let old_songs := s.songs
  let s := s.clear source
  let s := { s with songs := s.songs.append song_batch.songs }
  let ok := decide (s.songs ≠ old_songs)
  ({ s with index := s.index.resize s.songs.len }, ok)

/-- Private `PlaybackState::add_batch(batch)`: append the batch under the same
source, commit (reporting whether content changed), and resize the shuffle
index. -/
def PlaybackState.add_batch (s : PlaybackState) (song_batch : SongBatch) :
    PlaybackState × Bool :=
  let new_songs := s.songs.append song_batch.songs
  let ok := decide (new_songs ≠ s.songs)
  let s := { s with songs := new_songs }
  ({ s with index := s.index.resize s.songs.len }, ok)

/-- `PlaybackState::set_queue(tracks)`: replace everything with an ad-hoc track
list, clearing the source; grow the shuffle index. -/
def PlaybackState.set_queue (s : PlaybackState) (tracks : List SongDescription) :
    PlaybackState :=
  let s := s.clear none
  let s := { s with songs := s.songs.append tracks }
  { s with index := s.index.grow s.songs.len }

/-- `PlaybackState::queue(tracks)`: append an ad-hoc track list, detaching from
any external source; grow the shuffle index. -/
def PlaybackState.queue (s : PlaybackState) (tracks : List SongDescription) :
    PlaybackState :=
  let s := { s with source := none, songs := s.songs.append tracks }
  { s with index := s.index.grow s.songs.len }

/-- `PlaybackState::dequeue(ids)`: remove the songs with the given ids, re-locate
the previously current song's id in the updated collection, shrink the shuffle
index. -/
def PlaybackState.dequeue (s : PlaybackState) (ids : List String) : PlaybackState :=
  let current_id := s.current_song_id
  let s := { s with songs := s.songs.remove ids }
  let s := { s with list_position := current_id.bind (fun i => s.songs.find_index i) }
  { s with index := s.index.shrink s.songs.len }

/-- Private `PlaybackState::swap_pos(index, other_index)`: follow the pointer
through a swap of the two slots, clamped to `len - 1`. -/
def PlaybackState.swap_pos (s : PlaybackState) (idx other_index : Nat) : PlaybackState :=
  let len := s.songs.len
  { s with list_position :=
      (s.list_position.map (fun position =>
        if position = idx then other_index
        else if position = other_index then idx
        else position)).map (fun p => min p (len - 1)) }

/-- Modelled from the spec: the pending-edit `move_down(i)` on the collection
swaps slots `i` and `i+1` (no-op at the last slot). -/
def SongListModel.move_down (m : SongListModel) (i : Nat) : SongListModel :=
  if i + 1 < m.songs.length then
    ⟨(m.songs.set i (m.songs.getD (i + 1) ⟨""⟩)).set (i + 1) (m.songs.getD i ⟨""⟩)⟩
  else m

/-- Modelled from the spec: the pending-edit `move_up(i)` on the collection swaps
slots `i-1` and `i` (no-op at slot 0). -/
def SongListModel.move_up (m : SongListModel) (i : Nat) : SongListModel :=
  if 0 < i ∧ i < m.songs.length then
    ⟨(m.songs.set (i - 1) (m.songs.getD i ⟨""⟩)).set i (m.songs.getD (i - 1) ⟨""⟩)⟩
  else m

/-- `PlaybackState::move_down(id)`: locate the id, swap it down, follow the
pointer. Returns the located index, `none` when the id is absent. -/
def PlaybackState.move_down (s : PlaybackState) (i : String) : PlaybackState × Option Nat :=
  match s.songs.find_index i with
  | none => (s, none)
  | some idx =>
    let s := { s with songs := s.songs.move_down idx }
    (s.swap_pos (idx + 1) idx, some idx)

/-- `PlaybackState::move_up(id)`: locate the id (rejecting slot 0), swap it up,
follow the pointer. Returns the located index, `none` when absent or first. -/
def PlaybackState.move_up (s : PlaybackState) (i : String) : PlaybackState × Option Nat :=
  match (s.songs.find_index i).filter (fun idx => idx > 0) with
  | none => (s, none)
  | some idx =>
    let s := { s with songs := s.songs.move_up idx }
    (s.swap_pos (idx - 1) idx, some idx)

/-- Private `PlaybackState::play_index(index)`: marks playing, moves the pointer,
resets the clock to 0 running, materializes the shuffle permutation past the
index; returns the new current song id. -/
def PlaybackState.play_index (s : PlaybackState) (i : Nat) (now : Nat) :
    PlaybackState × Option String :=
  let s := { s with is_playing := true
                    list_position := some i
                    seek_position := s.seek_position.set 0 true now
                    index := s.index.next_until (i + 1) }
  (s, s.current_song_id)

/-- Private `PlaybackState::play(id)`: no-op returning `false` when `id` is
already current; otherwise locate it and jump (reseeding the shuffle permutation
first when shuffled), returning whether a change occurred. -/
def PlaybackState.play (s : PlaybackState) (i : String) (now : Nat) :
    PlaybackState × Bool :=
  if (s.current_song_id.map (fun cur => cur == i)).getD false then (s, false)
  else
    match s.songs.find_index i with
    | some idx =>
      if s.is_shuffled then
        let s := { s with index := s.index.reset_picking_first idx }
        ((s.play_index 0 now).1, true)
      else
        ((s.play_index idx now).1, true)
    | none => (s, false)

/-- Private `PlaybackState::stop()`: clears the pointer and the intent flag,
resets the clock to 0 stopped. -/
def PlaybackState.stop (s : PlaybackState) (now : Nat) : PlaybackState :=
  { s with list_position := none
           is_playing := false
           seek_position := s.seek_position.set 0 false now }

/-- Private `PlaybackState::play_next()`: advance to `next_index()` when present
(resetting the clock), else leave the state untouched and return `none`. -/
def PlaybackState.play_next (s : PlaybackState) (now : Nat) :
    PlaybackState × Option String :=
  match s.next_index with
  | some i =>
    let s := { s with seek_position := s.seek_position.set 0 true now }
    s.play_index i now
  | none => (s, none)

/-- Private `PlaybackState::play_prev()`: when a previous index exists, jump to it
only within the first 2000 ms of the current track, otherwise just restart the
current track (clock to 0 running, no track change). -/
def PlaybackState.play_prev (s : PlaybackState) (now : Nat) :
    PlaybackState × Option String :=
  match s.prev_index with
  | some i =>
    if s.seek_position.current now ≤ 2000 then
      let s := { s with seek_position := s.seek_position.set 0 true now }
      s.play_index i now
    else
      ({ s with seek_position := s.seek_position.set 0 true now }, none)
  | none => (s, none)

/-- Private `PlaybackState::toggle_play()`: flips the intent flag only when a
track is loaded, synchronizing the clock; returns the new effective playing
state, `none` when nothing is loaded. -/
def PlaybackState.toggle_play (s : PlaybackState) (now : Nat) :
    PlaybackState × Option Bool :=
  if s.list_position.isSome then
    let is_playing := !s.is_playing
    let seek := if is_playing then s.seek_position.resume now else s.seek_position.pause now
    ({ s with is_playing := is_playing, seek_position := seek }, some is_playing)
  else
    (s, none)

/-- Private `PlaybackState::set_shuffled(shuffled)`: sets the flag, replaces the
pointer with shuffle-position 0, and reseeds the permutation with the previous
pointer value (0 when nothing was loaded) as first pick. -/
def PlaybackState.set_shuffled (s : PlaybackState) (shuffled : Bool) : PlaybackState :=
  let old := s.list_position.getD 0
  { s with is_shuffled := shuffled
           list_position := some 0
           index := s.index.reset_picking_first old }

/-- The action set of the reducer (`PlaybackAction`). Seek positions are seconds
as `u32` (modelled `Nat`); the `f64` volume is modelled as a rational. -/
inductive PlaybackAction where
  | TogglePlay : PlaybackAction
  | Play : PlaybackAction
  | Pause : PlaybackAction
  | Stop : PlaybackAction
  | SetRepeatMode : RepeatMode → PlaybackAction
  | SetShuffled : Bool → PlaybackAction
  | ToggleRepeat : PlaybackAction
  | ToggleShuffle : PlaybackAction
  | Seek : Nat → PlaybackAction
  | SyncSeek : Nat → PlaybackAction
  | Load : String → PlaybackAction
  | LoadSongs : List SongDescription → PlaybackAction
  | LoadPagedSongs : SongsSource → SongBatch → PlaybackAction
  | SetVolume : Rat → PlaybackAction
  | Next : PlaybackAction
  | Previous : PlaybackAction
  | Preload : PlaybackAction
  | Queue : List SongDescription → PlaybackAction
  | Dequeue : String → PlaybackAction
  | SwitchDevice : Device → PlaybackAction
  | SetAvailableDevices : List ConnectDevice → PlaybackAction
deriving DecidableEq, Repr

/-- The event set emitted by the reducer (`PlaybackEvent`). -/
inductive PlaybackEvent where
  | PlaybackPaused : PlaybackEvent
  | PlaybackResumed : PlaybackEvent
  | RepeatModeChanged : RepeatMode → PlaybackEvent
  | TrackSeeked : Nat → PlaybackEvent
  | SeekSynced : Nat → PlaybackEvent
  | VolumeSet : Rat → PlaybackEvent
  | TrackChanged : String → PlaybackEvent
  | SourceChanged : PlaybackEvent
  | Preload : String → PlaybackEvent
  | ShuffleChanged : Bool → PlaybackEvent
  | PlaylistChanged : PlaybackEvent
  | PlaybackStopped : PlaybackEvent
  | SwitchedDevice : Device → PlaybackEvent
  | AvailableDevicesChanged : PlaybackEvent
deriving DecidableEq, Repr

/-- `UpdatableState::update_with` for `PlaybackState`: the reducer, mapping the
current state and one action to the mutated state and the emitted events, at
wall-clock `now`. The source's guarded match arms (`if` guards on patterns,
short-circuit `&&`) are mirrored by nested `if`s. -/
def PlaybackState.update_with (s : PlaybackState) (action : PlaybackAction) (now : Nat) :
    PlaybackState × List PlaybackEvent :=
  match action with
  | PlaybackAction.TogglePlay =>
    let (s, playing) := s.toggle_play now
    match playing with
    | some true => (s, [PlaybackEvent.PlaybackResumed])
    | some false => (s, [PlaybackEvent.PlaybackPaused])
    | none => (s, [])
  | PlaybackAction.Play =>
    if !s.effective_is_playing then
      let (s, r) := s.toggle_play now
      if r = some true then (s, [PlaybackEvent.PlaybackResumed]) else (s, [])
    else (s, [])
  | PlaybackAction.Pause =>
    if s.effective_is_playing then
      let (s, r) := s.toggle_play now
      if r = some false then (s, [PlaybackEvent.PlaybackPaused]) else (s, [])
    else (s, [])
  | PlaybackAction.ToggleRepeat =>
    let m := match s.repeat_mode with
      | RepeatMode.Song => RepeatMode.None
      | RepeatMode.Playlist => RepeatMode.Song
      | RepeatMode.None => RepeatMode.Playlist
    ({ s with repeat_mode := m }, [PlaybackEvent.RepeatModeChanged m])
  | PlaybackAction.SetRepeatMode mode =>
    if s.repeat_mode ≠ mode then
      ({ s with repeat_mode := mode }, [PlaybackEvent.RepeatModeChanged mode])
    else (s, [])
  | PlaybackAction.SetShuffled shuffled =>
    if s.is_shuffled ≠ shuffled then
      (s.set_shuffled shuffled, [PlaybackEvent.ShuffleChanged shuffled])
    else (s, [])
  | PlaybackAction.ToggleShuffle =>
    let s := s.set_shuffled (!s.is_shuffled)
    (s, [PlaybackEvent.ShuffleChanged s.is_shuffled])
  | PlaybackAction.Next =>
    let (s, r) := s.play_next now
    match r with
    | some i => (s, [PlaybackEvent.TrackChanged i, PlaybackEvent.PlaybackResumed])
    | none => (s.stop now, [PlaybackEvent.PlaybackStopped])
  | PlaybackAction.Stop => (s.stop now, [PlaybackEvent.PlaybackStopped])
  | PlaybackAction.Previous =>
    let (s, r) := s.play_prev now
    match r with
    | some i => (s, [PlaybackEvent.TrackChanged i, PlaybackEvent.PlaybackResumed])
    | none => (s, [PlaybackEvent.TrackSeeked 0])
  | PlaybackAction.Load i =>
    let (s, changed) := s.play i now
    if changed then
      (s, [PlaybackEvent.TrackChanged i, PlaybackEvent.PlaybackResumed])
    else (s, [])
  | PlaybackAction.Preload =>
    match s.next_id with
    | some i => (s, [PlaybackEvent.Preload i])
    | none => (s, [])
  | PlaybackAction.LoadPagedSongs source batch =>
    if some source = s.source then
      let (s, ok) := s.add_batch batch
      if ok then (s, [PlaybackEvent.PlaylistChanged]) else (s, [])
    else
      let (s, _) := s.set_batch (some source) batch
      (s, [PlaybackEvent.PlaylistChanged, PlaybackEvent.SourceChanged])
  | PlaybackAction.LoadSongs tracks =>
    (s.set_queue tracks, [PlaybackEvent.PlaylistChanged, PlaybackEvent.SourceChanged])
  | PlaybackAction.Queue tracks => (s.queue tracks, [PlaybackEvent.PlaylistChanged])
  | PlaybackAction.Dequeue i => (s.dequeue [i], [PlaybackEvent.PlaylistChanged])
  | PlaybackAction.Seek pos =>
    ({ s with seek_position := s.seek_position.set (pos * 1000) true now },
     [PlaybackEvent.TrackSeeked pos])
  | PlaybackAction.SyncSeek pos =>
    ({ s with seek_position := s.seek_position.set (pos * 1000) true now },
     [PlaybackEvent.SeekSynced pos])
  | PlaybackAction.SetVolume volume => (s, [PlaybackEvent.VolumeSet volume])
  | PlaybackAction.SetAvailableDevices list =>
    ({ s with available_devices := list }, [PlaybackEvent.AvailableDevicesChanged])
  | PlaybackAction.SwitchDevice new_device =>
    ({ s with current_device := new_device }, [PlaybackEvent.SwitchedDevice new_device])

/-- Reachability: the states obtainable from the default state by any sequence of
reducer actions, at arbitrary wall-clock instants. -/
inductive Reachable : PlaybackState → Prop where
  | init : Reachable PlaybackState.default
  | step (s : PlaybackState) (a : PlaybackAction) (now : Nat) :
      Reachable s → Reachable (s.update_with a now).1

/-! Helper lemmas -/

/-- Positions returned by `findIndexAux` are in bounds. -/
theorem findIndexAux_lt_length (l : List SongDescription) (i : String) (k : Nat)
    (h : findIndexAux l i = some k) : k < l.length := by
  induction l generalizing k with
  | nil => simp [findIndexAux] at h
  | cons hd tl ih =>
    simp only [findIndexAux] at h
    split at h
    · cases h; simp
    · rcases Option.map_eq_some'.1 h with ⟨k', hk', rfl⟩
      simpa using Nat.succ_lt_succ (ih k' hk')

/-- Positions returned by `SongListModel.find_index` are in bounds. -/
theorem find_index_lt_len (m : SongListModel) (i : String) (k : Nat)
    (h : m.find_index i = some k) : k < m.len :=
  findIndexAux_lt_length m.songs i k h

/-- Arithmetic of the predecessor in `Playlist` mode: the source's
`(if p = 0 then len else p) - 1` agrees with the spec's `(p - 1 + len) mod len`
(written `(p + len - 1) % len` over `Nat`) for in-range positions. -/
theorem playlist_prev_arith (p len : Nat) (hlen : 0 < len) (hp : p < len ∨ p = 0) :
    (if p = 0 then len else p) - 1 = (p + len - 1) % len := by
  by_cases h0 : p = 0
  · subst h0
    rw [if_pos rfl, Nat.mod_eq_of_lt (by omega)]
    omega
  · rw [if_neg h0]
    have hplen : p < len := by rcases hp with h | h; exact h; exact absurd h h0
    have : p + len - 1 = (p - 1) + len := by omega
    rw [this, Nat.add_mod_right, Nat.mod_eq_of_lt (by omega)]

/-! Concrete example states used by witnesses. -/

/-- Shorthand for a queued playback state over the given ids (built with the
source operations themselves). -/
def exQueue (ids : List String) : PlaybackState :=
  PlaybackState.default.queue (ids.map (fun i => ⟨i⟩))

/-- Playlist-mode example: three songs, position 2. -/
def exC3 : PlaybackState :=
  { exQueue ["1", "2", "3"] with repeat_mode := RepeatMode.Playlist,
                                 list_position := some 2 }

/-- C3: the navigation table. When `list_position` is `None`, `next_index()` and
`prev_index()` are both `None`. With `list_position = Some p`: in `Song` mode
both equal `p`; in `Playlist` mode with a nonempty list, `next_index()` is
`(p+1) mod len` and, for in-range `p`, `prev_index()` is `(p-1+len) mod len`
(written `(p+len-1) % len` over `Nat`, which agrees with the integer formula);
in `None` mode `next_index()` is `p+1` exactly when `p+1 < len`, and
`prev_index()` is `p-1` exactly when `p > 0`. -/
theorem C3_navigation_table (s : PlaybackState) :
    (s.list_position = none → s.next_index = none ∧ s.prev_index = none) ∧
    (∀ p, s.list_position = some p →
      (s.repeat_mode = RepeatMode.Song →
        s.next_index = some p ∧ s.prev_index = some p) ∧
      (s.repeat_mode = RepeatMode.Playlist → 0 < s.songs.len →
        s.next_index = some ((p + 1) % s.songs.len) ∧
        ((p < s.songs.len ∨ p = 0) →
          s.prev_index = some ((p + s.songs.len - 1) % s.songs.len))) ∧
      (s.repeat_mode = RepeatMode.None →
        (p + 1 < s.songs.len → s.next_index = some (p + 1)) ∧
        (s.songs.len ≤ p + 1 → s.next_index = none) ∧
        (0 < p → s.prev_index = some (p - 1)) ∧
        (p = 0 → s.prev_index = none))) := by
  constructor
  · intro h
    simp [PlaybackState.next_index, PlaybackState.prev_index, h]
  · intro p hp
    refine ⟨fun hr => ?_, fun hr hlen => ?_, fun hr => ?_⟩
    · simp [PlaybackState.next_index, PlaybackState.prev_index, hp, hr]
    · have hne : s.songs.len ≠ 0 := by omega
      constructor
      · simp [PlaybackState.next_index, hp, hr, hne]
      · intro hrange
        simp only [PlaybackState.prev_index, hp, hr, Option.bind_eq_bind,
          Option.some_bind]
        rw [if_pos (by omega), playlist_prev_arith p s.songs.len hlen hrange]
    · refine ⟨fun h => ?_, fun h => ?_, fun h => ?_, fun h => ?_⟩
      · simp [PlaybackState.next_index, hp, hr, h]
      · simp [PlaybackState.next_index, hp, hr]; omega
      · simp [PlaybackState.prev_index, hp, hr, h]
      · simp [PlaybackState.prev_index, hp, hr, h]

/-- C3 witness: in the concrete Playlist-mode state with three songs and
position 2, `next_index()` wraps to 0 and `prev_index()` is 1. -/
theorem C3_navigation_table_witness : exC3.next_index = some 0 ∧ exC3.prev_index = some 1 := by
  have h := (C3_navigation_table exC3).2 2 (by rfl)
  have h2 := h.2.1 (by rfl) (by decide)
  refine ⟨?_, ?_⟩
  · rw [h2.1]; decide
  · rw [h2.2 (Or.inl (by decide))]; decide

/-- C8: `ToggleRepeat` maps Song to None, None to Playlist, and Playlist to Song,
each time emitting exactly `[RepeatModeChanged(new mode)]` with the new mode
different from the old one; three applications restore the original mode. -/
theorem C8_toggle_repeat_cycle (s : PlaybackState) (now : Nat) :
    ((s.update_with PlaybackAction.ToggleRepeat now).2 =
      [PlaybackEvent.RepeatModeChanged
        (s.update_with PlaybackAction.ToggleRepeat now).1.repeat_mode]) ∧
    (s.repeat_mode = RepeatMode.Song →
      (s.update_with PlaybackAction.ToggleRepeat now).1.repeat_mode = RepeatMode.None) ∧
    (s.repeat_mode = RepeatMode.None →
      (s.update_with PlaybackAction.ToggleRepeat now).1.repeat_mode = RepeatMode.Playlist) ∧
    (s.repeat_mode = RepeatMode.Playlist →
      (s.update_with PlaybackAction.ToggleRepeat now).1.repeat_mode = RepeatMode.Song) ∧
    ((s.update_with PlaybackAction.ToggleRepeat now).1.repeat_mode ≠ s.repeat_mode) ∧
    ((((s.update_with PlaybackAction.ToggleRepeat now).1.update_with
        PlaybackAction.ToggleRepeat now).1.update_with
        PlaybackAction.ToggleRepeat now).1.repeat_mode = s.repeat_mode) := by
  cases hr : s.repeat_mode <;> simp [PlaybackState.update_with, hr]

/-- C8 witness: from the default state (repeat off), one toggle yields Playlist
and three toggles restore repeat off. -/
theorem C8_toggle_repeat_cycle_witness :
    (PlaybackState.default.update_with PlaybackAction.ToggleRepeat 0).1.repeat_mode =
      RepeatMode.Playlist ∧
    (((PlaybackState.default.update_with PlaybackAction.ToggleRepeat 0).1.update_with
        PlaybackAction.ToggleRepeat 0).1.update_with
        PlaybackAction.ToggleRepeat 0).1.repeat_mode = PlaybackState.default.repeat_mode :=
  ⟨(C8_toggle_repeat_cycle PlaybackState.default 0).2.2.1 rfl,
   (C8_toggle_repeat_cycle PlaybackState.default 0).2.2.2.2.2⟩

/-- C9: dispatching `Pause` when not effectively playing, or `Play` when already
effectively playing, emits no events and changes no field of the state
(the Position Clock included). -/
theorem C9_play_pause_idempotent :
    (∀ (s : PlaybackState) (now : Nat), s.effective_is_playing = false →
       s.update_with PlaybackAction.Pause now = (s, [])) ∧
    (∀ (s : PlaybackState) (now : Nat), s.effective_is_playing = true →
       s.update_with PlaybackAction.Play now = (s, [])) := by
  constructor <;> intro s now h <;> simp [PlaybackState.update_with, h]

/-- C9 witness: `Pause` on the (paused) default state, and `Play` on a concrete
playing state, are both complete no-ops. -/
theorem C9_play_pause_idempotent_witness :
    PlaybackState.default.update_with PlaybackAction.Pause 0 = (PlaybackState.default, []) ∧
    (((exQueue ["1", "2"]).play "2" 0).1.update_with PlaybackAction.Play 5 =
      (((exQueue ["1", "2"]).play "2" 0).1, [])) :=
  ⟨C9_play_pause_idempotent.1 PlaybackState.default 0 (by decide),
   C9_play_pause_idempotent.2 ((exQueue ["1", "2"]).play "2" 0).1 5 (by decide)⟩

/-- C10: on a state with nothing loaded (`list_position` is `None`),
`set_shuffled(b)` for either `b` sets `list_position` to `Some 0` and seeds the
shuffle generator with physical index 0 as first pick, without touching
`is_playing` — so on a non-empty list the song at shuffle-position 0 silently
becomes current; the `ToggleShuffle` action, and the `SetShuffled` action
whenever its argument differs from the current flag (its guard), invoke exactly
this `set_shuffled`. -/
theorem C10_set_shuffled_unloaded (s : PlaybackState) (h : s.list_position = none) :
    (∀ b, (s.set_shuffled b).list_position = some 0 ∧
          (s.set_shuffled b).index = s.index.reset_picking_first 0 ∧
          (s.set_shuffled b).is_playing = s.is_playing ∧
          (s.set_shuffled b).is_shuffled = b) ∧
    ((s.set_shuffled true).current_song_id = (s.songs.index 0).map (·.id)) ∧
    (∀ now, (s.update_with PlaybackAction.ToggleShuffle now).1 =
              s.set_shuffled (!s.is_shuffled) ∧
            (s.update_with PlaybackAction.ToggleShuffle now).2 =
              [PlaybackEvent.ShuffleChanged (!s.is_shuffled)]) ∧
    (∀ b now, s.is_shuffled ≠ b →
       (s.update_with (PlaybackAction.SetShuffled b) now).1 = s.set_shuffled b ∧
       (s.update_with (PlaybackAction.SetShuffled b) now).2 =
         [PlaybackEvent.ShuffleChanged b]) := by
  refine ⟨fun b => ?_, ?_, fun now => ?_, fun b now hb => ?_⟩
  · simp [PlaybackState.set_shuffled, h]
  · simp [PlaybackState.set_shuffled, PlaybackState.current_song_id,
      PlaybackState.index_song, LazyRandomIndex.reset_picking_first,
      LazyRandomIndex.get, h]
  · simp [PlaybackState.update_with, PlaybackState.set_shuffled]
  · simp [PlaybackState.update_with, hb]

/-- C10 witness: on a two-song queue with nothing loaded, enabling shuffle makes
position 0 current, seeds the generator with physical index 0, leaves the
playing flag off, and makes song "1" the current song. -/
theorem C10_set_shuffled_unloaded_witness :
    ((exQueue ["1", "2"]).set_shuffled true).list_position = some 0 ∧
    ((exQueue ["1", "2"]).set_shuffled true).index =
      (exQueue ["1", "2"]).index.reset_picking_first 0 ∧
    ((exQueue ["1", "2"]).set_shuffled true).is_playing = false ∧
    ((exQueue ["1", "2"]).set_shuffled true).current_song_id = some "1" := by
  have h := C10_set_shuffled_unloaded (exQueue ["1", "2"]) (by rfl)
  refine ⟨(h.1 true).1, (h.1 true).2.1, ?_, ?_⟩
  · rw [(h.1 true).2.2.1]; rfl
  · rw [h.2.1]; rfl

/-- C4: whenever `prev_index()` is `Some i`, `play_prev()` branches on the 2000 ms
threshold: at an elapsed position ≤ 2000 ms it resets the clock to 0 running and
jumps to index `i`, returning the new current song id; above 2000 ms it only
resets the clock to 0 running, leaves `list_position` (and every other field)
unchanged and reports no track change. -/
theorem C4_play_prev_threshold (s : PlaybackState) (now i : Nat)
    (h : s.prev_index = some i) :
    (s.seek_position.current now ≤ 2000 →
       (s.play_prev now).1.list_position = some i ∧
       (s.play_prev now).1.seek_position = s.seek_position.set 0 true now ∧
       (s.play_prev now).1.is_playing = true ∧
       (s.play_prev now).2 = (s.play_prev now).1.current_song_id) ∧
    (2000 < s.seek_position.current now →
       (s.play_prev now).1 = { s with seek_position := s.seek_position.set 0 true now } ∧
       (s.play_prev now).2 = none) := by
  constructor
  · intro hle
    simp [PlaybackState.play_prev, h, hle, PlaybackState.play_index, PositionMillis.set]
  · intro hgt
    simp [PlaybackState.play_prev, h, Nat.not_le.2 hgt]

/-- C4 witness: a two-song queue playing song "2" (position 1, clock anchored at
0): at elapsed 2000 ms `play_prev()` jumps back to position 0, at elapsed
2001 ms it stays at position 1 and reports no track change — the boundary cases
behave differently. -/
theorem C4_play_prev_threshold_witness :
    ((((exQueue ["1", "2"]).play "2" 0).1.play_prev 2000).1.list_position = some 0) ∧
    ((((exQueue ["1", "2"]).play "2" 0).1.play_prev 2001).1.list_position = some 1) ∧
    ((((exQueue ["1", "2"]).play "2" 0).1.play_prev 2001).2 = none) := by
  have h2000 := (C4_play_prev_threshold ((exQueue ["1", "2"]).play "2" 0).1 2000 0
    (by rfl)).1 (by decide)
  have h2001 := (C4_play_prev_threshold ((exQueue ["1", "2"]).play "2" 0).1 2001 0
    (by rfl)).2 (by decide)
  refine ⟨h2000.1, ?_, h2001.2⟩
  rw [h2001.1]
  rfl

/-- C6: `play(id)` is a pure no-op reporting "unchanged" when `id` is already the
current song, and the `Load(id)` action emits exactly
`[TrackChanged(id), PlaybackResumed]` when `play(id)` reports a change and no
events otherwise (the state being whatever `play(id)` produced). -/
theorem C6_play_noop_load_events :
    (∀ (s : PlaybackState) (i : String) (now : Nat), s.current_song_id = some i →
       s.play i now = (s, false)) ∧
    (∀ (s : PlaybackState) (i : String) (now : Nat),
       s.update_with (PlaybackAction.Load i) now =
         ((s.play i now).1,
          if (s.play i now).2 then
            [PlaybackEvent.TrackChanged i, PlaybackEvent.PlaybackResumed]
          else [])) := by
  constructor
  · intro s i now h
    simp [PlaybackState.play, h]
  · intro s i now
    rcases hp : s.play i now with ⟨s', c⟩
    simp only [PlaybackState.update_with, hp]
    cases c <;> simp

/-- C6 witness: with songs ["1","2"] and "2" playing, `play("2")` changes nothing
and reports `false`; `Load("1")` reports a change and emits the track-changed and
resumed events; `Load("2")` emits nothing. -/
theorem C6_play_noop_load_events_witness :
    (((exQueue ["1", "2"]).play "2" 0).1.play "2" 7 =
       (((exQueue ["1", "2"]).play "2" 0).1, false)) ∧
    ((((exQueue ["1", "2"]).play "2" 0).1.update_with (PlaybackAction.Load "2") 7).2 = []) ∧
    ((((exQueue ["1", "2"]).play "2" 0).1.update_with (PlaybackAction.Load "1") 7).2 =
       [PlaybackEvent.TrackChanged "1", PlaybackEvent.PlaybackResumed]) := by
  refine ⟨C6_play_noop_load_events.1 ((exQueue ["1", "2"]).play "2" 0).1 "2" 7 (by rfl),
    ?_, ?_⟩
  · rw [C6_play_noop_load_events.2 ((exQueue ["1", "2"]).play "2" 0).1 "2" 7]
    rfl
  · rw [C6_play_noop_load_events.2 ((exQueue ["1", "2"]).play "2" 0).1 "1" 7]
    rfl

/-- C7: `dequeue(ids)` removes exactly the songs whose id is among `ids`; when
there was no current song, `list_position` stays `None`; when there was one, the
new `list_position` is the result of re-locating its id in the updated
collection — the index of the id when it survived, `None` when it was removed. -/
theorem C7_dequeue_relocates (s : PlaybackState) (ids : List String) :
    ((s.dequeue ids).songs.songs =
       s.songs.songs.filter (fun song => !(ids.contains song.id))) ∧
    (s.current_song_id = none → (s.dequeue ids).list_position = none) ∧
    (∀ i, s.current_song_id = some i →
       (s.dequeue ids).list_position = (s.dequeue ids).songs.find_index i) := by
  refine ⟨rfl, fun h => ?_, fun i h => ?_⟩
  · simp [PlaybackState.dequeue, h]
  · simp [PlaybackState.dequeue, h]

/-- C7 witness: the spec scenario — six songs, "5" playing at index 4; removing
"1","2","3" leaves ["4","5","6"], the current id is still "5" and the position is
recomputed to 1. -/
theorem C7_dequeue_relocates_witness :
    (((exQueue ["1", "2", "3", "4", "5", "6"]).play "5" 0).1.list_position = some 4) ∧
    ((((exQueue ["1", "2", "3", "4", "5", "6"]).play "5" 0).1.dequeue
        ["1", "2", "3"]).songs.songs.map (·.id) = ["4", "5", "6"]) ∧
    ((((exQueue ["1", "2", "3", "4", "5", "6"]).play "5" 0).1.dequeue
        ["1", "2", "3"]).list_position = some 1) ∧
    ((((exQueue ["1", "2", "3", "4", "5", "6"]).play "5" 0).1.dequeue
        ["1", "2", "3"]).current_song_id = some "5") := by
  refine ⟨rfl, ?_, ?_, rfl⟩
  · rw [(C7_dequeue_relocates ((exQueue ["1", "2", "3", "4", "5", "6"]).play "5" 0).1
      ["1", "2", "3"]).1]
    rfl
  · rw [(C7_dequeue_relocates ((exQueue ["1", "2", "3", "4", "5", "6"]).play "5" 0).1
      ["1", "2", "3"]).2.2 "5" (by rfl)]
    rfl

/-- Appending a batch changes the collection exactly when the batch is
non-empty (the commit's "content changed" report for `add_batch`). -/
theorem add_batch_changed (s : PlaybackState) (batch : SongBatch) :
    (s.add_batch batch).2 = !batch.songs.isEmpty := by
  simp only [PlaybackState.add_batch, SongListModel.append]
  rcases hb : batch.songs with _ | ⟨hd, tl⟩
  · simp
  · simp only [List.isEmpty_cons, Bool.not_false, decide_eq_true_eq]
    intro hcontra
    have := congrArg (fun (m : SongListModel) => m.songs.length) hcontra
    simp at this

/-- C5 (amended): `LoadPagedSongs(source, batch)` with the current source appends
the batch and emits `[PlaylistChanged]` exactly when the append changed the
collection (the batch is non-empty), and no events otherwise; with a different
source it replaces the whole collection by the batch tagged to the new source and
always emits `[PlaylistChanged, SourceChanged]`. -/
theorem C5_load_paged_songs (s : PlaybackState) (src : SongsSource)
    (batch : SongBatch) (now : Nat) :
    (s.source = some src →
       s.update_with (PlaybackAction.LoadPagedSongs src batch) now =
         ((s.add_batch batch).1,
          if batch.songs.isEmpty then [] else [PlaybackEvent.PlaylistChanged]) ∧
       (s.add_batch batch).1.songs.songs = s.songs.songs ++ batch.songs ∧
       (s.add_batch batch).1.source = s.source ∧
       (s.add_batch batch).1.list_position = s.list_position) ∧
    (s.source ≠ some src →
       s.update_with (PlaybackAction.LoadPagedSongs src batch) now =
         ((s.set_batch (some src) batch).1,
          [PlaybackEvent.PlaylistChanged, PlaybackEvent.SourceChanged]) ∧
       (s.set_batch (some src) batch).1.songs.songs = batch.songs ∧
       (s.set_batch (some src) batch).1.source = some src ∧
       (s.set_batch (some src) batch).1.list_position = none) := by
  constructor
  · intro h
    refine ⟨?_, by simp [PlaybackState.add_batch, SongListModel.append],
      rfl, rfl⟩
    simp only [PlaybackState.update_with, h, if_pos rfl]
    rw [add_batch_changed]
    cases hb : batch.songs.isEmpty <;> simp
  · intro h
    have hne : ¬ some src = s.source := fun hc => h hc.symm
    refine ⟨?_, ?_, rfl, rfl⟩
    · simp [PlaybackState.update_with, hne]
    · simp [PlaybackState.set_batch, PlaybackState.clear, SongListModel.append]

/-- C5 counterexample: after loading a one-song page from source "s" (so the
current source is "s"), a second `LoadPagedSongs` from the same source with an
empty batch emits no events at all — not `[PlaylistChanged]` as claimed. -/
theorem C5_load_paged_songs_counterexample :
    ((PlaybackState.default.update_with
        (PlaybackAction.LoadPagedSongs ⟨"s"⟩ ⟨[⟨"a"⟩]⟩) 0).1.source = some ⟨"s"⟩) ∧
    (((PlaybackState.default.update_with
        (PlaybackAction.LoadPagedSongs ⟨"s"⟩ ⟨[⟨"a"⟩]⟩) 0).1.update_with
        (PlaybackAction.LoadPagedSongs ⟨"s"⟩ ⟨[]⟩) 0).2 = []) :=
  ⟨rfl, rfl⟩

/-- C5 witness: with current source "s", a non-empty same-source page appends and
emits exactly `[PlaylistChanged]`; a page from source "t" replaces the list and
emits `[PlaylistChanged, SourceChanged]`. -/
theorem C5_load_paged_songs_witness :
    (((PlaybackState.default.update_with
        (PlaybackAction.LoadPagedSongs ⟨"s"⟩ ⟨[⟨"a"⟩]⟩) 0).1.update_with
        (PlaybackAction.LoadPagedSongs ⟨"s"⟩ ⟨[⟨"b"⟩]⟩) 0).2 =
      [PlaybackEvent.PlaylistChanged]) ∧
    (((PlaybackState.default.update_with
        (PlaybackAction.LoadPagedSongs ⟨"s"⟩ ⟨[⟨"a"⟩]⟩) 0).1.update_with
        (PlaybackAction.LoadPagedSongs ⟨"t"⟩ ⟨[⟨"b"⟩]⟩) 0).2 =
      [PlaybackEvent.PlaylistChanged, PlaybackEvent.SourceChanged]) := by
  constructor
  · rw [((C5_load_paged_songs (PlaybackState.default.update_with
      (PlaybackAction.LoadPagedSongs ⟨"s"⟩ ⟨[⟨"a"⟩]⟩) 0).1 ⟨"s"⟩ ⟨[⟨"b"⟩]⟩ 0).1
      (by rfl)).1]
    rfl
  · rw [((C5_load_paged_songs (PlaybackState.default.update_with
      (PlaybackAction.LoadPagedSongs ⟨"s"⟩ ⟨[⟨"a"⟩]⟩) 0).1 ⟨"t"⟩ ⟨[⟨"b"⟩]⟩ 0).2
      (by decide)).1]

/-- C2 (amended): `Load` of an id not present in the collection, and `move_up` on
the first item, leave every field unchanged and produce no events / no result;
but `Next` with nothing loaded is not silent: it calls `stop()` (which clears the
pointer and intent flag and resets the clock to 0 stopped) and emits
`[PlaybackStopped]`. -/
theorem C2_inapplicable_actions :
    (∀ (s : PlaybackState) (now : Nat), s.list_position = none →
       s.update_with PlaybackAction.Next now =
         (s.stop now, [PlaybackEvent.PlaybackStopped])) ∧
    (∀ (s : PlaybackState) (now : Nat) (i : String), s.songs.find_index i = none →
       s.update_with (PlaybackAction.Load i) now = (s, [])) ∧
    (∀ (s : PlaybackState) (i : String), s.songs.find_index i = some 0 →
       s.move_up i = (s, none)) := by
  refine ⟨fun s now h => ?_, fun s now i h => ?_, fun s i h => ?_⟩
  · simp [PlaybackState.update_with, PlaybackState.play_next,
      PlaybackState.next_index, h]
  · have hp : s.play i now = (s, false) := by
      simp only [PlaybackState.play, h]
      split <;> rfl
    simp [PlaybackState.update_with, hp]
  · simp [PlaybackState.move_up, h, Option.filter]

/-- C2 counterexample: on the default state (nothing loaded), dispatching `Next`
returns `[PlaybackStopped]`, not the empty event list the claim requires for
inapplicable actions. -/
theorem C2_inapplicable_actions_counterexample :
    PlaybackState.default.list_position = none ∧
    (PlaybackState.default.update_with PlaybackAction.Next 0).2 =
      [PlaybackEvent.PlaybackStopped] :=
  ⟨rfl, rfl⟩

/-- C2 witness: concrete instances of all three amended cases. -/
theorem C2_inapplicable_actions_witness :
    (PlaybackState.default.update_with PlaybackAction.Next 0 =
      (PlaybackState.default.stop 0, [PlaybackEvent.PlaybackStopped])) ∧
    ((exQueue ["1", "2"]).update_with (PlaybackAction.Load "z") 0 =
      (exQueue ["1", "2"], [])) ∧
    ((exQueue ["1", "2"]).move_up "1" = (exQueue ["1", "2"], none)) :=
  ⟨C2_inapplicable_actions.1 PlaybackState.default 0 rfl,
   C2_inapplicable_actions.2.1 (exQueue ["1", "2"]) 0 "z" rfl,
   C2_inapplicable_actions.2.2 (exQueue ["1", "2"]) "1" rfl⟩

/-! Position invariant machinery for C1. -/

/-- The amended position invariant: any loaded position is in bounds or is 0
(position 0 with an empty list arises from `set_shuffled` on an unloaded state). -/
def PlaybackPosInv (s : PlaybackState) : Prop :=
  ∀ i, s.list_position = some i → i < s.songs.len ∨ i = 0

/-- The invariant transfers along equality of the two fields it mentions. -/
theorem posInv_of_eq (s s' : PlaybackState) (hpos : s'.list_position = s.list_position)
    (hsongs : s'.songs = s.songs) (h : PlaybackPosInv s) : PlaybackPosInv s' := by
  intro i hi
  rw [hpos] at hi
  rw [hsongs]
  exact h i hi

/-- `toggle_play` never moves the pointer. -/
theorem toggle_play_list_position (s : PlaybackState) (now : Nat) :
    (s.toggle_play now).1.list_position = s.list_position := by
  simp only [PlaybackState.toggle_play]
  split <;> rfl

/-- `toggle_play` never touches the collection. -/
theorem toggle_play_songs (s : PlaybackState) (now : Nat) :
    (s.toggle_play now).1.songs = s.songs := by
  simp only [PlaybackState.toggle_play]
  split <;> rfl

/-- A stopped state trivially satisfies the invariant (no pointer). -/
theorem posInv_stop (s : PlaybackState) (now : Nat) : PlaybackPosInv (s.stop now) := by
  intro i hi
  simp [PlaybackState.stop] at hi

/-- After `set_shuffled` the pointer is 0, so the invariant holds. -/
theorem posInv_set_shuffled (s : PlaybackState) (b : Bool) :
    PlaybackPosInv (s.set_shuffled b) := by
  intro i hi
  simp [PlaybackState.set_shuffled] at hi
  omega

/-- Under the invariant, `next_index()` only produces in-bounds-or-zero values. -/
theorem next_index_bound (s : PlaybackState) (i : Nat) (h : PlaybackPosInv s)
    (hi : s.next_index = some i) : i < s.songs.len ∨ i = 0 := by
  rcases hp : s.list_position with _ | p
  · simp [PlaybackState.next_index, hp] at hi
  · have hb := h p hp
    rcases hr : s.repeat_mode
    · simp only [PlaybackState.next_index, hp, hr, Option.some_bind,
        Option.some.injEq] at hi
      omega
    · by_cases hlen : s.songs.len = 0
      · simp [PlaybackState.next_index, hp, hr, hlen] at hi
      · simp only [PlaybackState.next_index, hp, hr, Option.some_bind, ne_eq, hlen,
          not_false_eq_true, if_true, Option.some.injEq] at hi
        subst hi
        exact Or.inl (Nat.mod_lt _ (Nat.pos_of_ne_zero hlen))
    · by_cases hlt : p + 1 < s.songs.len
      · simp only [PlaybackState.next_index, hp, hr, Option.some_bind, hlt, if_true,
          Option.some.injEq] at hi
        omega
      · simp [PlaybackState.next_index, hp, hr, hlt] at hi

/-- Under the invariant, `prev_index()` only produces in-bounds-or-zero values. -/
theorem prev_index_bound (s : PlaybackState) (i : Nat) (h : PlaybackPosInv s)
    (hi : s.prev_index = some i) : i < s.songs.len ∨ i = 0 := by
  rcases hp : s.list_position with _ | p
  · simp [PlaybackState.prev_index, hp] at hi
  · have hb := h p hp
    rcases hr : s.repeat_mode
    · simp only [PlaybackState.prev_index, hp, hr, Option.some_bind,
        Option.some.injEq] at hi
      omega
    · by_cases hlen : s.songs.len = 0
      · simp [PlaybackState.prev_index, hp, hr, hlen] at hi
      · simp only [PlaybackState.prev_index, hp, hr, Option.some_bind, ne_eq, hlen,
          not_false_eq_true, if_true, Option.some.injEq] at hi
        subst hi
        left
        by_cases h0 : p = 0 <;> simp only [h0, if_true, if_false] <;> omega
    · by_cases h0 : p > 0
      · simp only [PlaybackState.prev_index, hp, hr, Option.some_bind, h0, if_true,
          Option.some.injEq] at hi
        omega
      · simp [PlaybackState.prev_index, hp, hr, h0] at hi

/-- `play_index` lands the pointer exactly where asked, with the collection
untouched; the invariant follows from the bound on the target. -/
theorem posInv_play_index (s : PlaybackState) (i now : Nat)
    (hb : i < s.songs.len ∨ i = 0) : PlaybackPosInv (s.play_index i now).1 := by
  intro j hj
  have hpos : (s.play_index i now).1.list_position = some i := rfl
  rw [hpos] at hj
  cases hj
  exact hb

/-- `play` preserves the invariant. -/
theorem posInv_play (s : PlaybackState) (i : String) (now : Nat)
    (h : PlaybackPosInv s) : PlaybackPosInv (s.play i now).1 := by
  simp only [PlaybackState.play]
  split
  · exact h
  · rcases hf : s.songs.find_index i with _ | idx
    · exact h
    · have hidx := find_index_lt_len s.songs i idx hf
      by_cases hs : s.is_shuffled = true
      · simp only [if_pos hs]
        exact posInv_play_index _ 0 now (Or.inr rfl)
      · simp only [if_neg hs]
        exact posInv_play_index s idx now (Or.inl hidx)

/-- `play_next` preserves the invariant on the state it returns. -/
theorem posInv_play_next (s : PlaybackState) (now : Nat) (h : PlaybackPosInv s) :
    PlaybackPosInv (s.play_next now).1 := by
  simp only [PlaybackState.play_next]
  rcases hn : s.next_index with _ | i
  · exact h
  · have hb := next_index_bound s i h hn
    exact posInv_play_index _ i now hb

/-- `play_prev` preserves the invariant on the state it returns. -/
theorem posInv_play_prev (s : PlaybackState) (now : Nat) (h : PlaybackPosInv s) :
    PlaybackPosInv (s.play_prev now).1 := by
  simp only [PlaybackState.play_prev]
  rcases hn : s.prev_index with _ | i
  · exact h
  · have hb := prev_index_bound s i h hn
    by_cases hc : s.seek_position.current now ≤ 2000
    · simp only [if_pos hc]
      exact posInv_play_index _ i now hb
    · simp only [if_neg hc]
      exact posInv_of_eq s _ rfl rfl h

/-- Growing the collection (the `queue` operation) preserves the invariant. -/
theorem posInv_queue (s : PlaybackState) (tracks : List SongDescription)
    (h : PlaybackPosInv s) : PlaybackPosInv (s.queue tracks) := by
  intro i hi
  have hi' : s.list_position = some i := hi
  rcases h i hi' with hb | hb
  · left
    show i < (s.songs.append tracks).len
    simp only [SongListModel.append, SongListModel.len, List.length_append]
    simp only [SongListModel.len] at hb
    omega
  · right; exact hb

/-- Growing the collection (the `add_batch` operation) preserves the invariant. -/
theorem posInv_add_batch (s : PlaybackState) (batch : SongBatch)
    (h : PlaybackPosInv s) : PlaybackPosInv (s.add_batch batch).1 := by
  intro i hi
  have hi' : s.list_position = some i := hi
  rcases h i hi' with hb | hb
  · left
    show i < (s.songs.append batch.songs).len
    simp only [SongListModel.append, SongListModel.len, List.length_append]
    simp only [SongListModel.len] at hb
    omega
  · right; exact hb

/-- `set_batch` clears the pointer, so the invariant holds. -/
theorem posInv_set_batch (s : PlaybackState) (source : Option SongsSource)
    (batch : SongBatch) : PlaybackPosInv (s.set_batch source batch).1 := by
  intro i hi
  exact absurd hi (by simp [PlaybackState.set_batch, PlaybackState.clear])

/-- `set_queue` clears the pointer, so the invariant holds. -/
theorem posInv_set_queue (s : PlaybackState) (tracks : List SongDescription) :
    PlaybackPosInv (s.set_queue tracks) := by
  intro i hi
  exact absurd hi (by simp [PlaybackState.set_queue, PlaybackState.clear])

/-- `dequeue` re-locates the pointer through `find_index`, which is always in
bounds of the shrunken collection. -/
theorem posInv_dequeue (s : PlaybackState) (ids : List String) :
    PlaybackPosInv (s.dequeue ids) := by
  intro j hj
  left
  rcases ho : s.current_song_id with _ | i
  · have : (s.dequeue ids).list_position = none := by
      simp [PlaybackState.dequeue, ho]
    rw [this] at hj
    cases hj
  · have : (s.dequeue ids).list_position = (s.songs.remove ids).find_index i := by
      simp [PlaybackState.dequeue, ho]
    rw [this] at hj
    exact find_index_lt_len _ i j hj

/-- One reducer step preserves the (amended) position invariant. -/
theorem posInv_step (s : PlaybackState) (a : PlaybackAction) (now : Nat)
    (h : PlaybackPosInv s) : PlaybackPosInv (s.update_with a now).1 := by
  cases a with
  | TogglePlay =>
    simp only [PlaybackState.update_with]
    rcases he : s.toggle_play now with ⟨s', b⟩
    have h1 : s'.list_position = s.list_position := by
      rw [← toggle_play_list_position s now, he]
    have h2 : s'.songs = s.songs := by
      rw [← toggle_play_songs s now, he]
    have hinv := posInv_of_eq s s' h1 h2 h
    rcases b with _ | b
    · exact hinv
    · cases b <;> exact hinv
  | Play =>
    simp only [PlaybackState.update_with]
    split
    · rcases he : s.toggle_play now with ⟨s', b⟩
      have h1 : s'.list_position = s.list_position := by
        rw [← toggle_play_list_position s now, he]
      have h2 : s'.songs = s.songs := by
        rw [← toggle_play_songs s now, he]
      have hinv := posInv_of_eq s s' h1 h2 h
      split <;> exact hinv
    · exact h
  | Pause =>
    simp only [PlaybackState.update_with]
    split
    · rcases he : s.toggle_play now with ⟨s', b⟩
      have h1 : s'.list_position = s.list_position := by
        rw [← toggle_play_list_position s now, he]
      have h2 : s'.songs = s.songs := by
        rw [← toggle_play_songs s now, he]
      have hinv := posInv_of_eq s s' h1 h2 h
      split <;> exact hinv
    · exact h
  | ToggleRepeat => exact posInv_of_eq s _ rfl rfl h
  | SetRepeatMode mode =>
    simp only [PlaybackState.update_with]
    split
    · exact posInv_of_eq s _ rfl rfl h
    · exact h
  | SetShuffled b =>
    simp only [PlaybackState.update_with]
    split
    · exact posInv_set_shuffled s b
    · exact h
  | ToggleShuffle => exact posInv_set_shuffled s _
  | Seek pos => exact posInv_of_eq s _ rfl rfl h
  | SyncSeek pos => exact posInv_of_eq s _ rfl rfl h
  | Load i =>
    simp only [PlaybackState.update_with]
    rcases he : s.play i now with ⟨s', c⟩
    have : s' = (s.play i now).1 := by rw [he]
    subst this
    have hinv := posInv_play s i now h
    cases c <;> exact hinv
  | LoadSongs tracks => exact posInv_set_queue s tracks
  | LoadPagedSongs src batch =>
    simp only [PlaybackState.update_with]
    split
    · rcases he : s.add_batch batch with ⟨s', ok⟩
      have : s' = (s.add_batch batch).1 := by rw [he]
      subst this
      have hinv := posInv_add_batch s batch h
      cases ok <;> exact hinv
    · rcases he : s.set_batch (some src) batch with ⟨s', ok⟩
      have : s' = (s.set_batch (some src) batch).1 := by rw [he]
      subst this
      exact posInv_set_batch s (some src) batch
  | SetVolume v => exact h
  | Next =>
    simp only [PlaybackState.update_with]
    rcases he : s.play_next now with ⟨s', r⟩
    have : s' = (s.play_next now).1 := by rw [he]
    subst this
    rcases r with _ | i
    · exact posInv_stop _ now
    · exact posInv_play_next s now h
  | Previous =>
    simp only [PlaybackState.update_with]
    rcases he : s.play_prev now with ⟨s', r⟩
    have : s' = (s.play_prev now).1 := by rw [he]
    subst this
    have hinv := posInv_play_prev s now h
    rcases r with _ | i <;> exact hinv
  | Preload =>
    simp only [PlaybackState.update_with]
    rcases s.next_id with _ | i <;> exact h
  | Stop => exact posInv_stop s now
  | Queue tracks => exact posInv_queue s tracks h
  | Dequeue i => exact posInv_dequeue s [i]
  | SwitchDevice d => exact posInv_of_eq s _ rfl rfl h
  | SetAvailableDevices l => exact posInv_of_eq s _ rfl rfl h

/-- C1 counterexample: `ToggleShuffle` dispatched to the default state (empty
song list, nothing loaded) yields a reachable state whose `list_position` is
`Some 0` while `songs.len()` is 0 — so the claimed invariant
`Some(i) → i < songs.len()` fails on a reachable state. -/
theorem C1_invariant_counterexample :
    Reachable (PlaybackState.default.update_with PlaybackAction.ToggleShuffle 0).1 ∧
    (PlaybackState.default.update_with PlaybackAction.ToggleShuffle 0).1.list_position =
      some 0 ∧
    ¬ 0 < (PlaybackState.default.update_with PlaybackAction.ToggleShuffle 0).1.songs.len :=
  ⟨Reachable.step PlaybackState.default PlaybackAction.ToggleShuffle 0 Reachable.init,
   rfl, by decide⟩

/-- C1 (amended): for every reachable state, `list_position` is `None` or
`Some(i)` with `i < songs.len()` **or `i = 0`** — the `i = 0` escape hatch is
exactly the state produced by `SetShuffled`/`ToggleShuffle` acting on a state
with nothing loaded (and in particular an empty song list), where
`set_shuffled` unconditionally plants the pointer at position 0. -/
theorem C1_position_invariant (s : PlaybackState) (h : Reachable s) :
    ∀ i, s.list_position = some i → i < s.songs.len ∨ i = 0 := by
  induction h with
  | init =>
    intro i hi
    simp [PlaybackState.default] at hi
  | step s' a now _ ih => exact posInv_step s' a now ih

/-- C1 witness: a concrete reachable state (load one song, then play it) with the
pointer at `Some 0`, for which the amended invariant instantiates. -/
theorem C1_position_invariant_witness :
    0 < ((PlaybackState.default.update_with (PlaybackAction.LoadSongs [⟨"a"⟩]) 0).1.update_with
      (PlaybackAction.Load "a") 0).1.songs.len ∨ (0 : Nat) = 0 :=
  C1_position_invariant _
    (Reachable.step _ _ _ (Reachable.step _ _ _ Reachable.init)) 0 rfl
